import Mathlib

/-!
# Verification of the jermacaption admission/scheduling core

A shallow embedding, in Lean 4, of the admission queue, scheduler,
rate limiter and single-slot browser resource pool of the
MucciDev/jermacaption bot, together with proofs of the testable
properties stated in its specification.

The embedding follows the TypeScript source:

* the browser pool (`BROWSER_POOL`, `getBrowserPage`,
  `releaseBrowserPage`, `cleanupBrowser`) becomes a record
  `BrowserPool` with pure transition functions; browser/page handles
  are modelled as natural numbers supplied by the caller (standing for
  the fresh objects `puppeteer.launch()` / `browser.newPage()` return);
* the queue/scheduler state (`gifQueue`, `processingCount`) becomes a
  record `SchedState` with a step relation `SchedStep` whose
  constructors are the atomic (no-await) mutation sections of the
  source, which runs on a single-threaded cooperative event loop;
* the timed behaviour of one dispatched job (the race in
  `processGifWithTimeout` between the `setTimeout` deadline and the
  actual completion of `processGif`, and the `finally` blocks of the
  dispatchers) becomes a function from a `RenderRun` (actual duration
  and outcome of the underlying render) to a list of timestamped
  events;
* JS timestamps (`Date.now()`) are integers (`Int`) for the rate
  limiter, and the single-job timeline uses `Nat` milliseconds from
  dispatch.
-/

namespace Jerma

/-! ## Configuration constants (QUEUE_CONFIG and CONFIG in the source) -/

def MAX_QUEUE_SIZE : Nat := 100

def MAX_USER_REQUESTS_PER_MINUTE : Nat := 3

def MAX_PROCESSING_TIME_MS : Nat := 30000

def MAX_CONCURRENT_PROCESSING : Nat := 5

def BROWSER_IDLE_TIMEOUT : Nat := 300000

def WINDOW_MS : Int := 60000

/-! ## Browser resource pool

Embedding of the `BROWSER_POOL` singleton and the functions
`getBrowserPage`, `releaseBrowserPage` and `cleanupBrowser`.
`browser` and `page` are `Option Nat`: `none` is the JS `null`,
`some h` a live handle.  `getBrowserPage` takes the current time and
two fresh handle ids for the lazy-initialization branch
(`initializeBrowser` / `browser.newPage()`, modelled as succeeding). -/

structure BrowserPool where
  browser : Option Nat
  page : Option Nat
  inUse : Bool
  lastUsed : Nat
  deriving Repr, DecidableEq

/-- The initial value of `BROWSER_POOL` in the source:
`{ browser: null, page: null, inUse: false, lastUsed: 0 }`. -/
def initialPool : BrowserPool := ⟨none, none, false, 0⟩

/-- `getBrowserPage`, following the source's branch order:
if a browser and page exist and the pool is not in use, mark it in use
and return the existing page; else if a browser exists and the pool is
in use, throw `Browser is currently in use`; otherwise close any old
browser and lazily construct a new browser and page, marking the pool
in use. -/
def getBrowserPage (s : BrowserPool) (now freshB freshP : Nat) :
    Except String (Nat × BrowserPool) :=
  match s.browser, s.page, s.inUse with
  | some _, some p, false =>
      .ok (p, { s with inUse := true, lastUsed := now })
  | some _, _, true =>
      .error "Browser is currently in use"
  | _, _, _ =>
      .ok (freshP,
        { browser := some freshB, page := some freshP,
          inUse := true, lastUsed := now })

/-- `releaseBrowserPage`: sets `inUse := false` and stamps `lastUsed`. -/
def releaseBrowserPage (s : BrowserPool) (now : Nat) : BrowserPool :=
  { s with inUse := false, lastUsed := now }

/-- `cleanupBrowser`: when a browser exists and the pool is not in use,
close the browser and null the handles; otherwise a no-op.  (The idle
reaper calls this only when additionally
`now - lastUsed > BROWSER_IDLE_TIMEOUT`; for reachability we allow the
more general call, which covers the reaper's.) -/
def cleanupBrowser (s : BrowserPool) : BrowserPool :=
  if s.browser.isSome && !s.inUse then
    { s with browser := none, page := none }
  else s

/-- States of `BROWSER_POOL` reachable from its initial value through
the source's operations.  A failing `getBrowserPage` (the `InUse`
throw) leaves the state unchanged, so it contributes no constructor. -/
inductive PoolReach : BrowserPool → Prop
  | init : PoolReach initialPool
  | acquire (s s' : BrowserPool) (now freshB freshP p : Nat) :
      PoolReach s → getBrowserPage s now freshB freshP = .ok (p, s') →
      PoolReach s'
  | release (s : BrowserPool) (now : Nat) :
      PoolReach s → PoolReach (releaseBrowserPage s now)
  | cleanup (s : BrowserPool) :
      PoolReach s → PoolReach (cleanupBrowser s)

/-- In every reachable pool state, a busy pool has live browser and
page handles. -/
theorem poolReach_inUse_handles (s : BrowserPool) (hs : PoolReach s) :
    s.inUse = true → s.browser.isSome = true ∧ s.page.isSome = true := by
  induction hs with
  | init => intro h; simp [initialPool] at h
  | acquire t s' now fb fp p _ hacq _ =>
      intro h
      unfold getBrowserPage at hacq
      rcases hb : t.browser with _ | b <;> rcases hp : t.page with _ | pg <;>
        rcases hu : t.inUse with _ | _ <;>
        simp [hb, hp, hu] at hacq <;>
        (obtain ⟨-, rfl⟩ := hacq; simp)
  | release t now _ _ =>
      intro h
      simp [releaseBrowserPage] at h
  | cleanup t _ ih =>
      intro h
      unfold cleanupBrowser at h ⊢
      by_cases hc : (t.browser.isSome && !t.inUse) = true
      · simp [hc] at h ⊢
        simp [h] at hc
      · simp [hc] at h ⊢
        exact ih h

/-- The pool's acquire/release mechanism: in every reachable pool
state that is busy (`inUse = true`), any `getBrowserPage` call fails
immediately with the `Browser is currently in use` error, and after a
`releaseBrowserPage` the next `getBrowserPage` succeeds and returns
the existing page handle.  (This is only the mechanism of the single
slot; `generateImage`'s unconditional `finally` release defeats the
at-most-one-holder intent, see
`generateImage_finally_releases_foreign_hold`.) -/
theorem getBrowserPage_busy_inUse_release (s : BrowserPool)
    (hs : PoolReach s) (hbusy : s.inUse = true) :
    (∀ now freshB freshP,
      getBrowserPage s now freshB freshP =
        .error "Browser is currently in use") ∧
    (∀ nowR now2 freshB freshP, ∃ p, s.page = some p ∧
      getBrowserPage (releaseBrowserPage s nowR) now2 freshB freshP =
        .ok (p, { s with inUse := true, lastUsed := now2 })) := by
  obtain ⟨hb, hp⟩ := poolReach_inUse_handles s hs hbusy
  rcases hbs : s.browser with _ | b
  · rw [hbs] at hb; simp at hb
  rcases hps : s.page with _ | p
  · rw [hps] at hp; simp at hp
  constructor
  · intro now freshB freshP
    unfold getBrowserPage
    simp [hbs, hps, hbusy]
  · intro nowR now2 freshB freshP
    refine ⟨p, rfl, ?_⟩
    unfold getBrowserPage releaseBrowserPage
    simp [hbs, hps]

/-- Concrete instance of `getBrowserPage_busy_inUse_release`: the busy
state reached by one acquire from the initial pool rejects a second
acquire with the `InUse` error, and acquire-after-release returns the
existing page. -/
theorem getBrowserPage_busy_inUse_release_witness :
    getBrowserPage ⟨some 1, some 2, true, 5⟩ 7 8 9 =
        .error "Browser is currently in use" ∧
    getBrowserPage (releaseBrowserPage ⟨some 1, some 2, true, 5⟩ 6) 7 8 9 =
        .ok (2, ⟨some 1, some 2, true, 7⟩) := by
  have hreach : PoolReach ⟨some 1, some 2, true, 5⟩ :=
    PoolReach.acquire initialPool _ 5 1 2 2 PoolReach.init (by rfl)
  have h := getBrowserPage_busy_inUse_release _ hreach rfl
  refine ⟨h.1 7 8 9, ?_⟩
  obtain ⟨p, hp, hq⟩ := h.2 6 7 8 9
  cases hp
  exact hq

/-! ## Admission queue and scheduler

Embedding of `gifQueue`, `processingCount` and the functions
`addToQueue`, `getQueuePosition`, `getUserQueueCount`, `isQueueFull`,
`canProcessMore`, and the dispatch decision of `handleNewGIFWithGif` /
`processNextInQueue`.  Of a `QueueItem` only the `userId` matters to
these functions, so that is all the record carries. -/

structure QItem where
  userId : String
  deriving Repr, DecidableEq

/-- `getQueuePosition`: `findIndex` of the caller's earliest queued
item plus one; `0` when the caller has nothing queued (JS
`findIndex` returns `-1` there). -/
def getQueuePosition (q : List QItem) (userId : String) : Nat :=
  match q.findIdx? (fun item => item.userId == userId) with
  | some i => i + 1
  | none => 0

/-- `getUserQueueCount`: number of queued items with this `userId`. -/
def getUserQueueCount (q : List QItem) (userId : String) : Nat :=
  (q.filter (fun item => item.userId == userId)).length

/-- `isQueueFull`: `gifQueue.length >= MAX_QUEUE_SIZE`. -/
def isQueueFull (q : List QItem) : Bool :=
  MAX_QUEUE_SIZE ≤ q.length

/-- `canProcessMore`: `processingCount < MAX_CONCURRENT_PROCESSING`. -/
def canProcessMore (processingCount : Nat) : Bool :=
  processingCount < MAX_CONCURRENT_PROCESSING

/-- `addToQueue`: reject (`none`) when the queue is full, then when the
caller already has two or more queued items; otherwise push the item on
the tail. -/
def addToQueue (q : List QItem) (item : QItem) : Option (List QItem) :=
  if isQueueFull q then none
  else if 2 ≤ getUserQueueCount q item.userId then none
  else some (q ++ [item])

/-- The rejection message chosen by `handleNewGIFWithGif` when
`addToQueue` returned `false`, recomputed from `isQueueFull()`. -/
def rejectionReason (q : List QItem) : String :=
  if isQueueFull q then
    "The queue is currently full. Please try again later."
  else
    "You have too many requests in the queue. Please wait for them to complete."

/-- The module-level scheduler state: `gifQueue` and
`processingCount`. -/
structure SchedState where
  gifQueue : List QItem
  processingCount : Nat
  deriving Repr, DecidableEq

/-- The decision `handleNewGIFWithGif` makes for a new submission. -/
inductive SubmitOutcome
  | immediate (s' : SchedState)
  | queuedAt (position : Nat) (s' : SchedState)
  | rejectedWith (msg : String)
  deriving Repr, DecidableEq

/-- The state-and-reply logic of `handleNewGIFWithGif`: if
`canProcessMore() && gifQueue.length === 0`, increment
`processingCount` and run the item immediately without touching the
queue; otherwise `addToQueue`, reporting `rejectionReason` on failure
and the caller's queue position (computed on the updated queue, as the
source does) on success. -/
def handleNewGIFWithGif (s : SchedState) (item : QItem) : SubmitOutcome :=
  if canProcessMore s.processingCount && s.gifQueue.length == 0 then
    .immediate { s with processingCount := s.processingCount + 1 }
  else
    match addToQueue s.gifQueue item with
    | none => .rejectedWith (rejectionReason s.gifQueue)
    | some q' => .queuedAt (getQueuePosition q' item.userId)
        { s with gifQueue := q' }

/-- The atomic state transitions of the scheduler, one constructor per
no-await mutation section of the source:
* `enqueue` — a successful `addToQueue` (slow path of
  `handleNewGIFWithGif`);
* `fastPath` — the fast path of `handleNewGIFWithGif`
  (`processingCount++` with the queue empty and capacity free);
* `dispatch` — the synchronous prefix of `processNextInQueue`
  (`shift()` then `processingCount++`, guarded by a nonempty queue and
  `canProcessMore()`);
* `complete` — the `finally` decrement of `processingCount` when a
  dispatched job's wrapper settles (it always follows a matching
  earlier increment). -/
inductive SchedStep : SchedState → SchedState → Prop
  | enqueue (s : SchedState) (item : QItem) (q' : List QItem) :
      addToQueue s.gifQueue item = some q' →
      SchedStep s { s with gifQueue := q' }
  | fastPath (s : SchedState) :
      canProcessMore s.processingCount = true → s.gifQueue = [] →
      SchedStep s { s with processingCount := s.processingCount + 1 }
  | dispatch (s : SchedState) (item : QItem) (rest : List QItem) :
      s.gifQueue = item :: rest → canProcessMore s.processingCount = true →
      SchedStep s { gifQueue := rest, processingCount := s.processingCount + 1 }
  | complete (s : SchedState) :
      1 ≤ s.processingCount →
      SchedStep s { s with processingCount := s.processingCount - 1 }

/-- Scheduler states reachable from the initial empty state. -/
inductive SchedReach : SchedState → Prop
  | init : SchedReach ⟨[], 0⟩
  | step (s s' : SchedState) : SchedReach s → SchedStep s s' → SchedReach s'

lemma getUserQueueCount_append_le (q : List QItem) (item : QItem)
    (u : String) :
    getUserQueueCount (q ++ [item]) u ≤ getUserQueueCount q u + 1 := by
  unfold getUserQueueCount
  rw [List.filter_append, List.length_append]
  have : (List.filter (fun i => i.userId == u) [item]).length ≤ 1 := by
    simp [List.filter]
    rcases h : (item.userId == u) with _ | _ <;> simp
  omega

lemma getUserQueueCount_cons_le (item : QItem) (rest : List QItem)
    (u : String) :
    getUserQueueCount rest u ≤ getUserQueueCount (item :: rest) u := by
  unfold getUserQueueCount
  rw [List.filter_cons]
  rcases h : (item.userId == u) with _ | _ <;> simp [h]

/-- C3.  In every reachable scheduler state, the queue length is at
most `MAX_QUEUE_SIZE`, each caller has at most two queued jobs, and
`processingCount` is at most `MAX_CONCURRENT_PROCESSING`. -/
theorem schedReach_invariant (s : SchedState) (hs : SchedReach s) :
    s.gifQueue.length ≤ MAX_QUEUE_SIZE ∧
    (∀ u, getUserQueueCount s.gifQueue u ≤ 2) ∧
    s.processingCount ≤ MAX_CONCURRENT_PROCESSING := by
  induction hs with
  | init => refine ⟨by simp [MAX_QUEUE_SIZE], fun u => ?_, by simp⟩
            simp [getUserQueueCount]
  | step t t' _ hstep ih =>
      obtain ⟨ihlen, ihuser, ihcount⟩ := ih
      cases hstep with
      | enqueue item q' hadd =>
          unfold addToQueue at hadd
          by_cases hfull : isQueueFull t.gifQueue
          · simp [hfull] at hadd
          · by_cases huser : 2 ≤ getUserQueueCount t.gifQueue item.userId
            · simp [hfull, huser] at hadd
            · simp [hfull, huser] at hadd
              subst hadd
              have hlen : t.gifQueue.length < MAX_QUEUE_SIZE := by
                unfold isQueueFull at hfull
                simpa using hfull
              refine ⟨by simp; omega, fun u => ?_, ihcount⟩
              show getUserQueueCount (t.gifQueue ++ [item]) u ≤ 2
              have hle := getUserQueueCount_append_le t.gifQueue item u
              by_cases hu : item.userId = u
              · subst hu
                have := ihuser item.userId
                omega
              · have heq : getUserQueueCount (t.gifQueue ++ [item]) u =
                    getUserQueueCount t.gifQueue u := by
                  unfold getUserQueueCount
                  rw [List.filter_append, List.length_append]
                  have hne : (item.userId == u) = false :=
                    beq_eq_false_iff_ne.mpr hu
                  simp [List.filter, hne]
                rw [heq]
                exact ihuser u
      | fastPath hcan hq =>
          refine ⟨ihlen, ihuser, ?_⟩
          unfold canProcessMore at hcan
          simp at hcan ⊢
          omega
      | dispatch item rest hq hcan =>
          unfold canProcessMore at hcan
          simp at hcan
          refine ⟨?_, fun u => ?_, by simp; omega⟩
          · have := ihlen
            rw [hq] at this
            simp at this ⊢
            omega
          · have := ihuser u
            rw [hq] at this
            have hle := getUserQueueCount_cons_le item rest u
            simp at hle ⊢
            omega
      | complete hpos =>
          exact ⟨ihlen, ihuser, by simp; omega⟩

/-- Concrete instance of `schedReach_invariant`: the bounds hold in
the state reached by one enqueue and one dispatch from the initial
state. -/
theorem schedReach_invariant_witness :
    getUserQueueCount [] "u1" ≤ 2 ∧ (1 : Nat) ≤ MAX_CONCURRENT_PROCESSING := by
  have h1 : SchedReach ⟨[⟨"u1"⟩], 0⟩ :=
    SchedReach.step _ _ SchedReach.init
      (SchedStep.enqueue ⟨[], 0⟩ ⟨"u1"⟩ [⟨"u1"⟩] (by decide))
  have h2 : SchedReach ⟨[], 1⟩ :=
    SchedReach.step _ _ h1
      (SchedStep.dispatch ⟨[⟨"u1"⟩], 0⟩ ⟨"u1"⟩ [] rfl (by decide))
  have h := schedReach_invariant _ h2
  exact ⟨h.2.1 "u1", h.2.2⟩

/-- C5.  Admission rejection reasons in order: a full queue yields the
queue-full message regardless of the caller's own queued count; the
user-limit message is produced exactly when the queue is not full and
the caller already has at least two queued jobs; an accepted item is
appended to the tail of the FIFO. -/
theorem addToQueue_rejection_order (q : List QItem) (item : QItem) :
    (MAX_QUEUE_SIZE ≤ q.length →
      addToQueue q item = none ∧
      rejectionReason q =
        "The queue is currently full. Please try again later.") ∧
    ((addToQueue q item = none ∧
      rejectionReason q =
        "You have too many requests in the queue. Please wait for them to complete.") ↔
      (q.length < MAX_QUEUE_SIZE ∧
        2 ≤ getUserQueueCount q item.userId)) ∧
    (∀ q', addToQueue q item = some q' → q' = q ++ [item]) := by
  unfold addToQueue rejectionReason isQueueFull
  by_cases hfull : MAX_QUEUE_SIZE ≤ q.length
  · simp [hfull]
  · by_cases huser : 2 ≤ getUserQueueCount q item.userId
    · simp [hfull, huser]
      omega
    · simp [hfull, huser]

/-- Concrete instance of `addToQueue_rejection_order`: with the queue
at `MAX_QUEUE_SIZE` items, admission fails and the reported reason is
the queue-full message, even though the submitting caller already has
two items queued. -/
theorem addToQueue_rejection_order_witness :
    addToQueue (List.replicate 100 ⟨"a"⟩) ⟨"a"⟩ = none ∧
    rejectionReason (List.replicate 100 ⟨"a"⟩) =
      "The queue is currently full. Please try again later." :=
  (addToQueue_rejection_order (List.replicate 100 ⟨"a"⟩) ⟨"a"⟩).1
    (by simp [MAX_QUEUE_SIZE])

/-- C7.  A submission is dispatched immediately (fast path) exactly
when a concurrency slot is free and the queue is empty; the fast path
leaves the queue untouched; and a job submitted while five jobs are
running with an empty queue is enqueued at position 1 instead. -/
theorem handleNewGIFWithGif_fast_path (s : SchedState) (item : QItem) :
    ((∃ s', handleNewGIFWithGif s item = .immediate s') ↔
      (s.processingCount < MAX_CONCURRENT_PROCESSING ∧ s.gifQueue = [])) ∧
    (∀ s', handleNewGIFWithGif s item = .immediate s' →
      s' = { s with processingCount := s.processingCount + 1 }) ∧
    handleNewGIFWithGif ⟨[], 5⟩ item = .queuedAt 1 ⟨[item], 5⟩ := by
  refine ⟨?_, ?_, ?_⟩
  · unfold handleNewGIFWithGif canProcessMore
    by_cases hcan :
        (s.processingCount < MAX_CONCURRENT_PROCESSING : Bool) = true
    · by_cases hq : s.gifQueue.length == 0
      · simp [hcan, hq]
        exact ⟨by simpa using hcan, by simpa using hq⟩
      · simp [hcan, hq]
        constructor
        · rintro ⟨s', habs⟩
          rcases h : addToQueue s.gifQueue item with _ | q' <;>
            simp [h] at habs
        · rintro ⟨-, h2⟩
          simp [h2] at hq
    · simp [hcan]
      constructor
      · rintro ⟨s', habs⟩
        rcases h : addToQueue s.gifQueue item with _ | q' <;>
          simp [h] at habs
      · rintro ⟨h1, -⟩
        simp [h1] at hcan
  · intro s'
    unfold handleNewGIFWithGif
    by_cases hcond :
        (canProcessMore s.processingCount && s.gifQueue.length == 0) = true
    · simp [hcond]
      intro h
      exact h.symm
    · simp [hcond]
      rcases h : addToQueue s.gifQueue item with _ | q' <;> simp [h]
  · unfold handleNewGIFWithGif canProcessMore
    simp [MAX_CONCURRENT_PROCESSING, addToQueue, isQueueFull,
      getUserQueueCount, MAX_QUEUE_SIZE, getQueuePosition, List.findIdx?]

/-- Concrete instance of `handleNewGIFWithGif_fast_path`: with nothing
running and an empty queue a submission runs immediately; with five
running and an empty queue it is queued at position 1. -/
theorem handleNewGIFWithGif_fast_path_witness :
    (∃ s', handleNewGIFWithGif ⟨[], 0⟩ ⟨"w"⟩ = .immediate s') ∧
    handleNewGIFWithGif ⟨[], 5⟩ ⟨"w"⟩ = .queuedAt 1 ⟨[⟨"w"⟩], 5⟩ :=
  ⟨(handleNewGIFWithGif_fast_path ⟨[], 0⟩ ⟨"w"⟩).1.mpr ⟨by decide, rfl⟩,
   (handleNewGIFWithGif_fast_path ⟨[], 5⟩ ⟨"w"⟩).2.2⟩

/-! ## Rate limiter

Embedding of `userRequestTimes` and `isRateLimited`.  The JS `Map` of
per-user millisecond timestamps becomes an association list
`List (String × List Int)`; a missing key reads as `[]`, as
`userRequestTimes.get(userId) || []` does. -/

/-- `isRateLimited`: keep the user's timestamps strictly newer than
`now - 60000` and compare their number against
`MAX_USER_REQUESTS_PER_MINUTE`. -/
def isRateLimited (userRequestTimes : List (String × List Int))
    (userId : String) (now : Int) : Bool :=
  let userTimes := (userRequestTimes.lookup userId).getD []
  let recentRequests := userTimes.filter (fun time => now - 60000 < time)
  MAX_USER_REQUESTS_PER_MINUTE ≤ recentRequests.length

/-- The specification's reading of the sliding window: the number of
recorded timestamps lying within `WINDOW_MS` of `now`. -/
def withinWindowCount (times : List Int) (now : Int) : Nat :=
  (times.filter (fun time => now - time < WINDOW_MS)).length

/-- C6.  `isRateLimited` (the negation of the specification's
`allow`) returns `true` exactly when at least
`MAX_USER_REQUESTS_PER_MINUTE` of the caller's recorded timestamps
fall within `WINDOW_MS` of the current time. -/
theorem isRateLimited_iff_window (userRequestTimes : List (String × List Int))
    (userId : String) (now : Int) :
    isRateLimited userRequestTimes userId now = true ↔
      MAX_USER_REQUESTS_PER_MINUTE ≤
        withinWindowCount ((userRequestTimes.lookup userId).getD []) now := by
  unfold isRateLimited withinWindowCount
  have hfilter :
      ((userRequestTimes.lookup userId).getD []).filter
          (fun time => now - 60000 < time) =
        ((userRequestTimes.lookup userId).getD []).filter
          (fun time => now - time < WINDOW_MS) := by
    apply List.filter_congr
    intro t _
    simp only [decide_eq_decide, WINDOW_MS]
    omega
  simp only [hfilter]
  simp

/-! ## Timed behaviour of one dispatched job

`processGifWithTimeout` races the actual completion of
`processGif` against a `setTimeout` deadline of
`MAX_PROCESSING_TIME_MS`: whichever settles the promise first wins,
and the loser's `resolve`/`reject` is a no-op.  A `RenderRun` records
how the underlying render would behave on its own: `duration` is the
time (ms after dispatch) at which `processGif` actually finishes, and
`succeeds` tells whether it resolves (having sent its reply with the
finished GIF just before) or rejects.  The slot-holding part of
`processGif` is `generateImage`, whose `finally` releases the browser
slot when the render actually finishes; we place that release at
`duration`.  From a `RenderRun` we compute the timestamped,
caller-visible and accounting events the source produces. -/

structure RenderRun where
  duration : Nat
  succeeds : Bool
  deriving Repr, DecidableEq

/-- Whether the `setTimeout` deadline fires before `processGif`
settles the promise. -/
def timedOut (r : RenderRun) : Bool :=
  MAX_PROCESSING_TIME_MS < r.duration

/-- The time at which the promise returned by `processGifWithTimeout`
settles: actual completion or the deadline, whichever is first. -/
def settleTime (r : RenderRun) : Nat :=
  min r.duration MAX_PROCESSING_TIME_MS

/-- Events of one job's lifetime, timestamped in ms after dispatch. -/
inductive JobEvent
  | callerReply (success : Bool)
  | counterDecrement
  | slotRelease
  | dispatchNext
  deriving Repr, DecidableEq

/-- The `interaction.editReply` calls the caller observes for one
dispatched job.  If the wrapper times out, its rejection is caught by
the dispatcher, which sends the generic error reply at the deadline;
the abandoned render keeps running, and when it later *succeeds* its
own `editReply` (inside `processGif`) still delivers the finished GIF,
while a late *failure* is rejected into the already-settled promise
and vanishes.  Without a timeout there is exactly one reply at the
actual completion: the GIF on success, the dispatcher's error reply on
failure. -/
def callerReplies (r : RenderRun) : List (Nat × JobEvent) :=
  if timedOut r then
    (MAX_PROCESSING_TIME_MS, .callerReply false) ::
      (if r.succeeds then [(r.duration, .callerReply true)] else [])
  else
    [(r.duration, .callerReply r.succeeds)]

/-- The full timed event list of one dispatched job.  `fromQueue`
tells which dispatcher ran it: `processNextInQueue` (queued) or the
fast path of `handleNewGIFWithGif`.  Both dispatchers decrement
`processingCount` in their `finally` when the wrapper settles;
`generateImage`'s `finally` releases the browser slot when the render
actually finishes; and the follow-up dispatch attempt is
`setTimeout(() => processNextInQueue(), 100)` in the queued
dispatcher but a synchronous `processNextInQueue()` call in the fast
path's `finally`. -/
def jobEvents (fromQueue : Bool) (r : RenderRun) : List (Nat × JobEvent) :=
  callerReplies r
    ++ [(r.duration, .slotRelease)]
    ++ [(settleTime r, .counterDecrement)]
    ++ [(settleTime r + (if fromQueue then 100 else 0), .dispatchNext)]

/-- C1 counterexample.  A render that takes 40000 ms and succeeds is
reported timed out at 30000 ms, yet its eventual result is not
discarded: the caller receives a second reply carrying the finished
GIF at 40000 ms, so there are two terminal notifications, not exactly
one. -/
theorem timeout_second_reply_counterexample :
    timedOut ⟨40000, true⟩ = true ∧
    callerReplies ⟨40000, true⟩ =
      [(MAX_PROCESSING_TIME_MS, .callerReply false),
        (40000, .callerReply true)] ∧
    (callerReplies ⟨40000, true⟩).length = 2 := by
  decide

/-- C1 (amended).  When the deadline elapses first the caller gets the
generic error reply at `MAX_PROCESSING_TIME_MS` while the render runs
on; its promise-level settlement is discarded, but a late *successful*
render still sends its own reply, so the caller sees two replies; a
late failure adds none.  Without a timeout there is exactly one reply,
at the actual completion. -/
theorem callerReplies_spec (r : RenderRun) :
    (timedOut r = true →
      (MAX_PROCESSING_TIME_MS, JobEvent.callerReply false) ∈
          callerReplies r ∧
      (callerReplies r).length = if r.succeeds then 2 else 1) ∧
    (timedOut r = false →
      callerReplies r = [(r.duration, JobEvent.callerReply r.succeeds)]) := by
  unfold callerReplies
  rcases htm : timedOut r with _ | _ <;>
    rcases hsc : r.succeeds with _ | _ <;>
    simp [htm, hsc]

/-- Concrete instance of `callerReplies_spec`: one reply for a timed
out render that later fails, one reply for a fast successful render. -/
theorem callerReplies_spec_witness :
    (callerReplies ⟨40000, false⟩).length = 1 ∧
    callerReplies ⟨1000, true⟩ = [(1000, JobEvent.callerReply true)] := by
  refine ⟨?_, (callerReplies_spec ⟨1000, true⟩).2 (by decide)⟩
  have h := ((callerReplies_spec ⟨40000, false⟩).1 (by decide)).2
  simpa using h

/-- C4 counterexample.  For a render actually finishing at 40000 ms,
the running counter is decremented at the 30000 ms deadline — not when
the underlying operation finishes — while the pool slot is indeed
released at 40000 ms. -/
theorem counter_decrement_at_deadline_counterexample :
    timedOut ⟨40000, true⟩ = true ∧
    (MAX_PROCESSING_TIME_MS, JobEvent.counterDecrement) ∈
      jobEvents true ⟨40000, true⟩ ∧
    ((40000 : Nat), JobEvent.counterDecrement) ∉
      jobEvents true ⟨40000, true⟩ ∧
    ((40000 : Nat), JobEvent.slotRelease) ∈ jobEvents true ⟨40000, true⟩ := by
  decide

/-- C4 (amended).  The pool slot is released exactly when the
underlying render actually finishes (`duration`), even past the
deadline; the running counter is instead decremented exactly when the
timeout wrapper settles — the earlier of actual completion and the
deadline. -/
theorem jobEvents_release_and_decrement (fromQueue : Bool)
    (r : RenderRun) :
    (r.duration, JobEvent.slotRelease) ∈ jobEvents fromQueue r ∧
    (settleTime r, JobEvent.counterDecrement) ∈ jobEvents fromQueue r ∧
    (∀ t, (t, JobEvent.counterDecrement) ∈ jobEvents fromQueue r →
      t = settleTime r) ∧
    (∀ t, (t, JobEvent.slotRelease) ∈ jobEvents fromQueue r →
      t = r.duration) := by
  rcases htm : timedOut r with _ | _ <;>
    rcases hsc : r.succeeds with _ | _ <;>
    rcases hfq : fromQueue with _ | _ <;>
    simp [jobEvents, callerReplies, htm, hsc]

/-- Concrete instance of `jobEvents_release_and_decrement`: for a
fast-path render of 20000 ms the slot release is at 20000 ms and any
counter decrement happens at the settle time. -/
theorem jobEvents_release_and_decrement_witness :
    (((20000 : Nat), JobEvent.slotRelease) ∈
      jobEvents false ⟨20000, true⟩) ∧
    (20000 : Nat) = settleTime ⟨20000, true⟩ :=
  ⟨(jobEvents_release_and_decrement false ⟨20000, true⟩).1,
    (jobEvents_release_and_decrement false ⟨20000, true⟩).2.2.1 20000
      (by decide)⟩

/-- C8 counterexample.  A job run on the fast path whose render
finishes successfully at 1000 ms triggers the next dispatch attempt
synchronously at 1000 ms — there is no dispatch event at 1100 ms — so
not every completion schedules the next dispatch with the 100 ms
delay. -/
theorem fastpath_sync_dispatch_counterexample :
    settleTime ⟨1000, true⟩ = 1000 ∧
    ((1000 : Nat), JobEvent.dispatchNext) ∈ jobEvents false ⟨1000, true⟩ ∧
    ((1100 : Nat), JobEvent.dispatchNext) ∉ jobEvents false ⟨1000, true⟩ := by
  decide

/-- C8 (amended).  Only completions of jobs dispatched from the queue
schedule the next dispatch attempt with the fixed 100 ms delay; the
fast path's completion handler invokes the dispatch attempt
synchronously when its wrapper settles. -/
theorem jobEvents_dispatchNext (r : RenderRun) :
    ((settleTime r + 100, JobEvent.dispatchNext) ∈ jobEvents true r) ∧
    ((settleTime r, JobEvent.dispatchNext) ∈ jobEvents false r) ∧
    (∀ b t, (t, JobEvent.dispatchNext) ∈ jobEvents b r →
      t = settleTime r + if b then 100 else 0) := by
  refine ⟨?_, ?_, ?_⟩
  · simp [jobEvents]
  · simp [jobEvents]
  · intro b t hmem
    cases b <;>
      rcases htm : timedOut r with _ | _ <;>
      rcases hsc : r.succeeds with _ | _ <;>
      simp [jobEvents, callerReplies, htm, hsc] at hmem <;>
      simp [hmem]

/-- Concrete instance of `jobEvents_dispatchNext`: a queued job whose
render settles at 500 ms has its follow-up dispatch at 600 ms, and any
dispatch event of that job is at settle time plus 100 ms. -/
theorem jobEvents_dispatchNext_witness :
    ((settleTime ⟨500, true⟩ + 100, JobEvent.dispatchNext) ∈
      jobEvents true ⟨500, true⟩) ∧
    (600 : Nat) = settleTime ⟨500, true⟩ + if true then 100 else 0 :=
  ⟨(jobEvents_dispatchNext ⟨500, true⟩).1,
    (jobEvents_dispatchNext ⟨500, true⟩).2.2 true 600 (by decide)⟩

/-! ## generateImage input validation

Embedding of `generateImage` from the captions module.  JS strings
are modelled as `List Char` here because the emptiness check calls
`text.trim()`.  The two validation throws sit *before* the `try`
block, so a rejected text reaches neither `ensureDirectoryExists`,
nor `getBrowserPage`, nor the screenshot, and the `finally` that
calls `releaseBrowserPage` does not run.  Inside the `try` the page
interactions (`setContent`, viewports, bounding box, screenshot) are
modelled as succeeding; any of their failures lands in the same
catch/finally as the acquire failure.  `path.join` is modelled as
string concatenation. -/

/-- JS `String.prototype.trim`: strip leading and trailing
whitespace. -/
def jsTrim (l : List Char) : List Char :=
  ((l.dropWhile Char.isWhitespace).reverse.dropWhile
    Char.isWhitespace).reverse

lemma jsTrim_eq_nil_iff_all (l : List Char) :
    jsTrim l = [] ↔ l.all Char.isWhitespace = true := by
  unfold jsTrim
  constructor
  · intro h
    have hrev : (l.dropWhile Char.isWhitespace).reverse.dropWhile
        Char.isWhitespace = [] := by
      have := congrArg List.reverse h
      simpa using this
    rw [List.dropWhile_eq_nil_iff] at hrev
    have hdrop : l.dropWhile Char.isWhitespace = [] := by
      rcases hd : l.dropWhile Char.isWhitespace with _ | ⟨c, rest⟩
      · rfl
      · have hc : ¬Char.isWhitespace c = true := by
          have := List.head_dropWhile_not (p := Char.isWhitespace) (l := l)
          simp [hd] at this
          simp [this]
        have : c ∈ (l.dropWhile Char.isWhitespace).reverse := by
          simp [hd]
        exact absurd (hrev c this) hc
    rw [List.dropWhile_eq_nil_iff] at hdrop
    simp [List.all_eq_true]
    exact fun c hc => hdrop c hc
  · intro h
    simp [List.all_eq_true] at h
    have : l.dropWhile Char.isWhitespace = [] := by
      rw [List.dropWhile_eq_nil_iff]
      exact h
    simp [this]

inductive ImgAction
  | ensureDir
  | acquirePage (page : Nat)
  | screenshot (path : String)
  deriving Repr, DecidableEq

/-- `generateImage text id` over a pool state: result (output path or
error message), the pool state afterwards, and the actions performed,
in order. -/
def generateImage (text : List Char) (id : String) (pool : BrowserPool)
    (now freshB freshP : Nat) :
    Except String String × BrowserPool × List ImgAction :=
  if text.length = 0 || (jsTrim text).length = 0 then
    (.error "Text cannot be empty", pool, [])
  else if 5000 < text.length then
    (.error "Text is too long", pool, [])
  else
    let outputPath := "./_temp/texts/" ++ id ++ "-text.png"
    match getBrowserPage pool now freshB freshP with
    | .error e =>
        (.error ("Failed to generate image: " ++ e),
          releaseBrowserPage pool now, [.ensureDir])
    | .ok (p, pool') =>
        (.ok outputPath, releaseBrowserPage pool' now,
          [.ensureDir, .acquirePage p, .screenshot outputPath])

/-- C9.  `generateImage` rejects empty or whitespace-only text with
`Text cannot be empty` and rejects any text longer than 5000
characters (with `Text is too long` whenever the emptiness check did
not already fire) — in every case before touching the pool, the
browser slot, or any file: the pool state is returned unchanged and no
action is performed. -/
theorem generateImage_validates_first (text : List Char) (id : String)
    (pool : BrowserPool) (now freshB freshP : Nat) :
    (text.all Char.isWhitespace = true →
      generateImage text id pool now freshB freshP =
        (.error "Text cannot be empty", pool, [])) ∧
    (text.all Char.isWhitespace = false → 5000 < text.length →
      generateImage text id pool now freshB freshP =
        (.error "Text is too long", pool, [])) ∧
    (5000 < text.length → ∃ msg,
      generateImage text id pool now freshB freshP =
        (.error msg, pool, [])) := by
  have hchar := jsTrim_eq_nil_iff_all text
  refine ⟨?_, ?_, ?_⟩
  · intro hall
    have htrim : (jsTrim text).length = 0 := by
      simp [hchar.mpr hall]
    unfold generateImage
    simp [htrim]
  · intro hall hlong
    have h0 : ¬text.length = 0 := by
      intro h
      rw [List.length_eq_zero] at h
      simp [h] at hall
    have h1 : ¬(jsTrim text).length = 0 := by
      intro h
      rw [List.length_eq_zero] at h
      rw [hchar.mp h] at hall
      cases hall
    unfold generateImage
    simp [h0, h1, hlong]
  · intro hlong
    by_cases hall : text.all Char.isWhitespace = true
    · refine ⟨"Text cannot be empty", ?_⟩
      have htrim : (jsTrim text).length = 0 := by
        simp [hchar.mpr hall]
      unfold generateImage
      simp [htrim]
    · refine ⟨"Text is too long", ?_⟩
      rw [Bool.not_eq_true] at hall
      have h0 : ¬text.length = 0 := by
        intro h
        rw [List.length_eq_zero] at h
        simp [h] at hall
      have h1 : ¬(jsTrim text).length = 0 := by
        intro h
        rw [List.length_eq_zero] at h
        rw [hchar.mp h] at hall
        cases hall
      unfold generateImage
      simp [h0, h1, hlong]

/-- Concrete instance of `generateImage_validates_first`: a
whitespace-only text and an overlong text are both rejected with the
pool untouched and no actions. -/
theorem generateImage_validates_first_witness :
    generateImage [' ', ' ', ' '] "job1" initialPool 0 1 2 =
      (.error "Text cannot be empty", initialPool, []) ∧
    generateImage ('a' :: List.replicate 5000 'a') "job2"
        initialPool 0 1 2 =
      (.error "Text is too long", initialPool, []) :=
  ⟨(generateImage_validates_first [' ', ' ', ' '] "job1"
      initialPool 0 1 2).1 (by decide),
    (generateImage_validates_first ('a' :: List.replicate 5000 'a')
        "job2" initialPool 0 1 2).2.1
      (by
        rw [List.all_cons]
        have hws : 'a'.isWhitespace = false := by decide
        rw [hws, Bool.false_and])
      (by
        rw [List.length_cons, List.length_replicate]
        omega)⟩

/-- C2.  The claim's invariant — at most one job holds the single pool
slot at any instant — is broken by the code at a concrete three-job
interleaving, because `generateImage`'s `finally` calls
`releaseBrowserPage` even when its own `getBrowserPage` threw `InUse`:
job A acquires the page and is mid-render (pool busy); job B's
`generateImage` then fails with the `InUse` error yet flips the pool
back to not-in-use on its way out; job C's `getBrowserPage` thereupon
succeeds and returns the very page A is still using, so A and C hold
the slot at the same instant. -/
theorem generateImage_finally_releases_foreign_hold :
    getBrowserPage initialPool 0 1 2 =
      .ok (2, ⟨some 1, some 2, true, 0⟩) ∧
    generateImage ['h', 'i'] "B" ⟨some 1, some 2, true, 0⟩ 1 8 9 =
      (.error "Failed to generate image: Browser is currently in use",
        ⟨some 1, some 2, false, 1⟩, [.ensureDir]) ∧
    getBrowserPage ⟨some 1, some 2, false, 1⟩ 2 8 9 =
      .ok (2, ⟨some 1, some 2, true, 2⟩) :=
  ⟨rfl, rfl, rfl⟩

/-! ## Slash-command input sanitization

Embedding of `sanitizeInput` and of how `launchBot` routes
interactions: a slash command (`interaction.isCommand()`) passes its
`text` and `gif` option strings through `sanitizeInput` before
`handleNewGIF`; a message-context-menu submission passes the target
message content through unchanged.  JS strings are `List Char`; a
missing/undefined option is `none` (JS `!input` is also true for the
empty string, which `isEmpty` covers). -/

/-- The character class kept by `sanitizeInput`'s regex
`[^a-zA-Z0-9_\- ]` (everything else is removed). -/
def isAllowedChar (c : Char) : Bool :=
  (decide ('a' ≤ c) && decide (c ≤ 'z')) ||
  (decide ('A' ≤ c) && decide (c ≤ 'Z')) ||
  (decide ('0' ≤ c) && decide (c ≤ '9')) ||
  c == '_' || c == '-' || c == ' '

/-- `sanitizeInput`: `""` for a missing or empty input, otherwise the
input with every character outside `[a-zA-Z0-9_\- ]` removed. -/
def sanitizeInput : Option (List Char) → List Char
  | none => []
  | some input => if input.isEmpty then [] else input.filter isAllowedChar

/-- The `(text, gif)` pair a slash-command submission hands to
`handleNewGIF` (launchBot's `isCommand()` branch). -/
def slashCommandJob (rawText rawGif : Option (List Char)) :
    List Char × List Char :=
  (sanitizeInput rawText, sanitizeInput rawGif)

/-- The text a context-menu submission hands to `handleNewGIF`
(launchBot's `isMessageContextMenu()` branch): the target message
content, unsanitized. -/
def contextMenuJobText (content : List Char) : List Char :=
  content

lemma sanitizeInput_all_allowed (i : Option (List Char)) :
    (sanitizeInput i).all isAllowedChar = true := by
  cases i with
  | none => rfl
  | some l =>
      unfold sanitizeInput
      by_cases h : l.isEmpty <;> simp [h, List.all_eq_true]

/-- C10.  Every slash-command submission reaches the job pipeline with
its text and gif drawn only from `[a-zA-Z0-9_\- ]` (a missing option
becoming the empty string), while context-menu submissions are passed
through unsanitized — some message contents reach the pipeline with
characters outside that set. -/
theorem slashCommand_sanitized (rawText rawGif : Option (List Char)) :
    (slashCommandJob rawText rawGif).1.all isAllowedChar = true ∧
    (slashCommandJob rawText rawGif).2.all isAllowedChar = true ∧
    sanitizeInput none = [] ∧
    (∃ content, (contextMenuJobText content).all isAllowedChar = false) := by
  refine ⟨sanitizeInput_all_allowed rawText, sanitizeInput_all_allowed rawGif,
    rfl, ⟨['!'], by decide⟩⟩

end Jerma
